import Mathlib

/-!
Verification of the CPU / COP0 / DMA core of the PSRustX emulator.

The Rust sources `src/cpu.rs` and `src/cpu/dma.rs` are embedded shallowly:
`u32` values are `Nat` with explicit `% 2 ^ 32` at wrapping operations,
signed cycle counters (`i32` / `i64`) are `Int`, and fallible code paths
(Rust `panic!` / `todo!`) return `Option`.  Sub-modules of the repository
that are not part of the provided sources (`dma_channel.rs`,
`dma_channel_control_register.rs`, `dma_block_control_register.rs`,
`counter.rs`, `bus.rs`, the interrupt registers and the GPU command intake)
are modelled from the specification; every such definition carries a doc
comment starting with "Modelled from the spec:".
-/

namespace PSX

/-- Exception cause codes, from the `Cause` enum in `cpu.rs`. -/
inductive Cause where
  | Interrupt
  | LoadAddressError
  | StoreAddressError
  | SysCall
  | Break
  | IllegalInstruction
  | CoprocessorError
  | Overflow
deriving DecidableEq

/-- Numeric value of each cause code, as assigned in the Rust enum. -/
def Cause.toNat : Cause → Nat
  | .Interrupt => 0x0
  | .LoadAddressError => 0x4
  | .StoreAddressError => 0x5
  | .SysCall => 0x8
  | .Break => 0x9
  | .IllegalInstruction => 0xa
  | .CoprocessorError => 0xb
  | .Overflow => 0xc

/-- COP0 register state (`sr`, `cause`, `epc`), from `cpu.rs`. -/
structure COP0 where
  sr : Nat
  cause : Nat
  epc : Nat

/-- Boot-exception-vector bit: `(sr >> 22) & 1 == 1`. -/
def COP0.bev (z : COP0) : Bool := (z.sr >>> 22) &&& 1 == 1

/-- `interrupt_mask`: `((sr >> 8) as u8) & ((cause >> 8) as u8)`. -/
def COP0.interrupt_mask (z : COP0) : Nat :=
  ((z.sr >>> 8) &&& 0xff) &&& ((z.cause >>> 8) &&& 0xff)

/-- `interrupts_ready`: `sr & 1 == 1 && interrupt_mask() != 0`. -/
def COP0.interrupts_ready (z : COP0) : Bool :=
  (z.sr &&& 1 == 1) && (z.interrupt_mask != 0)

/-- `COP0::enter_exception` from `cpu.rs`: picks the vector from `bev`,
pushes the 6-bit mode stack (`sr &= !0x3f; sr |= (mode << 2) & 0x3f`) and
writes the cause code into bits 2..6 of `cause`
(`cause &= !0x7c; cause |= code << 2`).  `!0x3f` on `u32` is `0xffffffc0`
and `!0x7c` is `0xffffff83`. -/
def COP0.enter_exception (z : COP0) (cause : Cause) : Nat × COP0 :=
  let exception_address : Nat := if z.bev then 0xbfc00180 else 0x80000080
  let mode := z.sr &&& 0x3f
  let sr1 := (z.sr &&& 0xffffffc0) ||| ((mode <<< 2) &&& 0x3f)
  let cause1 := (z.cause &&& 0xffffff83) ||| (cause.toNat <<< 2)
  (exception_address, { z with sr := sr1, cause := cause1 })

/-- `COP0::return_from_exception` from `cpu.rs`:
`mode = sr & 0x3f; sr &= !0xf; sr |= mode >> 2`.
`!0xf` on `u32` is `0xfffffff0`. -/
def COP0.return_from_exception (z : COP0) : COP0 :=
  let mode := z.sr &&& 0x3f
  { z with sr := (z.sr &&& 0xfffffff0) ||| (mode >>> 2) }

/-- `COP0::set_interrupt` from `cpu.rs`: sets or clears cause bit 10.
`!(1 << 10)` on `u32` is `0xfffffbff`. -/
def COP0.set_interrupt (z : COP0) (set_active : Bool) : COP0 :=
  if set_active then { z with cause := z.cause ||| (1 <<< 10) }
  else { z with cause := z.cause &&& 0xfffffbff }

/-- Modelled from the spec: the three DMA synchronization modes
(`dma_channel_control_register.rs` is not among the provided sources). -/
inductive SyncMode where
  | Manual
  | Request
  | LinkedList
deriving DecidableEq

/-- Modelled from the spec: the per-channel state of `dma_channel.rs`
(not among the provided sources): configuration registers
`base_address` / `block_control` / `control` (raw 32-bit values) plus the
runtime cursor fields `active_address`, `word_count`, `blocks_remaining`
and the `gap_ticks` countdown.  `gap_ticks` is signed (`Int`), matching
the signed cycle arithmetic (`active_count : i32`, `cycles : i64`) of the
provided sources. -/
structure DmaChannel where
  channel_id : Nat
  base_address : Nat
  block_control : Nat
  control : Nat
  active_address : Nat
  word_count : Nat
  blocks_remaining : Nat
  gap_ticks : Int

/-- Modelled from the spec: a freshly constructed channel (`DmaChannel::new`),
all registers and cursors zero. -/
def DmaChannel.new (id : Nat) : DmaChannel :=
  { channel_id := id, base_address := 0, block_control := 0, control := 0,
    active_address := 0, word_count := 0, blocks_remaining := 0, gap_ticks := 0 }

/-- Modelled from the spec: the control register's synchronization-mode
field, bits 9-10 of the raw value (0 = Manual, 1 = Request, 2 = LinkedList). -/
def DmaChannel.synchronization_mode (ch : DmaChannel) : SyncMode :=
  match (ch.control >>> 9) &&& 3 with
  | 0 => .Manual
  | 1 => .Request
  | 2 => .LinkedList
  | _ => .Manual

/-- Modelled from the spec: control register direction bit 0
(1 = transfer from RAM to the peripheral). -/
def DmaChannel.is_from_ram (ch : DmaChannel) : Bool := ch.control &&& 1 == 1

/-- Modelled from the spec: control register address-step bit 1
(0 = increment the cursor by 4 per word, 1 = decrement). -/
def DmaChannel.is_address_increment (ch : DmaChannel) : Bool :=
  (ch.control >>> 1) &&& 1 == 0

/-- Modelled from the spec: control register chopping-enable bit 8. -/
def DmaChannel.chopping_enabled (ch : DmaChannel) : Bool :=
  (ch.control >>> 8) &&& 1 == 1

/-- Modelled from the spec: control register channel-enable bit 24. -/
def DmaChannel.enabled (ch : DmaChannel) : Bool := (ch.control >>> 24) &&& 1 == 1

/-- Modelled from the spec: control register manual-trigger bit 28. -/
def DmaChannel.trigger (ch : DmaChannel) : Bool := (ch.control >>> 28) &&& 1 == 1

/-- Modelled from the spec: a channel is active iff its enable and trigger
conditions hold; the trigger bit is only consulted in Manual mode. -/
def DmaChannel.is_active (ch : DmaChannel) : Bool :=
  ch.enabled && (match ch.synchronization_mode with
                 | .Manual => ch.trigger
                 | _ => true)

/-- Modelled from the spec: block size, the low 16 bits of `block_control`. -/
def DmaChannel.block_size (ch : DmaChannel) : Nat := ch.block_control &&& 0xffff

/-- Modelled from the spec: block count, the high 16 bits of `block_control`. -/
def DmaChannel.block_count (ch : DmaChannel) : Nat :=
  (ch.block_control >>> 16) &&& 0xffff

/-- Modelled from the spec: `finish` returns a channel to Idle by clearing
the enable (bit 24) and trigger (bit 28) bits of the control register;
`!((1 << 24) | (1 << 28))` on `u32` is `0xeeffffff`. -/
def DmaChannel.finish (ch : DmaChannel) : DmaChannel :=
  { ch with control := ch.control &&& 0xeeffffff }

/-- Modelled from the spec: the cycle counter (`counter.rs` is not among the
provided sources): one monotonic cycle count plus the DMA engine's
last-synchronization checkpoint (the only device checkpoint the embedded
code consults). -/
structure Counter where
  cycles : Int
  dma_sync : Int

/-- Modelled from the spec: `Counter::tick(n)` advances the global count. -/
def Counter.tick (c : Counter) (n : Int) : Counter := { c with cycles := c.cycles + n }

/-- Modelled from the spec: `sync_and_get_elapsed_cycles(Device::Dma)`
returns `global - last_sync` and moves the checkpoint to the current
global count. -/
def Counter.sync_and_get_elapsed_cycles (c : Counter) : Int × Counter :=
  (c.cycles - c.dma_sync, { cycles := c.cycles, dma_sync := c.cycles })

/-- Modelled from the spec: the bus (`bus.rs` is not among the provided
sources), restricted to the interface the embedded code consumes: a word
memory, the GPU `gp0` command intake (recorded as the list of words sent),
and the shared cycle counter. -/
structure Bus where
  mem : Nat → Nat
  gp0_words : List Nat
  counter : Counter

/-- Modelled from the spec: `mem_read_32` returns the 32-bit word mapped at
the address (side effects of device reads are outside this model). -/
def Bus.mem_read_32 (b : Bus) (address : Nat) : Nat := b.mem address % 2 ^ 32

/-- Modelled from the spec: `mem_write_32` stores a 32-bit word. -/
def Bus.mem_write_32 (b : Bus) (address value : Nat) : Bus :=
  { b with mem := fun a => if a = address then value % 2 ^ 32 else b.mem a }

/-- Modelled from the spec: the GPU's `gp0` intake accepts one 32-bit
command word; the model records the words in arrival order. -/
def Bus.gp0 (b : Bus) (word : Nat) : Bus :=
  { b with gp0_words := b.gp0_words ++ [word] }

/-- DMA engine state from `dma.rs`: master `control`, the raw interrupt
register value, the seven channels, and the transient `active_count`
cycle-cost accumulator (`i32`, hence `Int`). -/
structure DMA where
  control : Nat
  interrupt : Nat
  channels : List DmaChannel
  active_count : Int

/-- `DMA::new` from `dma.rs`: control starts at `0x07654321`, seven fresh
channels, `active_count = 0` (the interrupt register model starts at 0). -/
def DMA.new : DMA :=
  { control := 0x07654321, interrupt := 0,
    channels := [DmaChannel.new 0, DmaChannel.new 1, DmaChannel.new 2,
                 DmaChannel.new 3, DmaChannel.new 4, DmaChannel.new 5,
                 DmaChannel.new 6],
    active_count := 0 }

/-- `DMA::is_master_enabled` from `dma.rs`:
`(control & (1 << ((channel_id << 2) + 3))) != 0`. -/
def DMA.is_master_enabled (control : Nat) (channel_id : Nat) : Bool :=
  control &&& (1 <<< ((channel_id <<< 2) + 3)) != 0

/-- `DMA::tick_request` from `dma.rs`, as a function of the serviced channel
and the bus; the `Int` result is the amount this call adds to
`active_count`.  `None` models the `panic!` on a from-RAM target other than
channel 2 and the `todo!` on to-RAM transfers. -/
def DMA.tick_request (ch : DmaChannel) (bus : Bus) : Option (DmaChannel × Bus × Int) :=
  let is_increment := ch.is_address_increment
  let masked_address := ch.active_address &&& 0x1ffffc
  if ch.is_from_ram then
    if ch.channel_id == 2 then
      let bus1 := bus.gp0 (bus.mem_read_32 masked_address)
      let addr1 := if is_increment then (ch.active_address + 4) % 2 ^ 32
                   else (ch.active_address + 2 ^ 32 - 4) % 2 ^ 32
      let ch1 := { ch with active_address := addr1, word_count := ch.word_count - 1 }
      if ch1.word_count == 0 then
        let delta : Int := (ch1.block_size : Int)
        let ch2 := { ch1 with blocks_remaining := ch1.blocks_remaining - 1 }
        if ch2.blocks_remaining > 0 then
          some ({ ch2 with word_count := ch2.word_count + ch2.block_size, gap_ticks := ch2.gap_ticks + 1 }, bus1, delta)
        else
          some (ch2.finish, bus1, delta)
      else
        some (ch1, bus1, 0)
    else none
  else none

/-- `DMA::tick_manual` from `dma.rs`, same conventions as `tick_request`;
the to-RAM case is the hard-coded channel-6 terminator/reverse-link writer. -/
def DMA.tick_manual (ch : DmaChannel) (bus : Bus) : Option (DmaChannel × Bus × Int) :=
  let is_increment := ch.is_address_increment
  let masked_address := ch.active_address &&& 0x1ffffc
  let transferred : Option Bus :=
    if ch.is_from_ram then
      if ch.channel_id == 2 then some (bus.gp0 (bus.mem_read_32 masked_address))
      else none
    else
      if ch.channel_id == 6 then
        let value := if ch.word_count == 1 then 0xffffff
                     else ((ch.active_address + 2 ^ 32 - 4) % 2 ^ 32) &&& 0x1fffff
        some (bus.mem_write_32 masked_address value)
      else none
  match transferred with
  | none => none
  | some bus1 =>
    let addr1 := if is_increment then (ch.active_address + 4) % 2 ^ 32
                 else (ch.active_address + 2 ^ 32 - 4) % 2 ^ 32
    let ch1 := { ch with active_address := addr1, word_count := ch.word_count - 1 }
    if ch1.word_count == 0 then some (ch1.finish, bus1, (ch1.block_size : Int))
    else some (ch1, bus1, 0)

/-- The streaming loop of `DMA::tick_linked_list`: sends `n` payload words
to the GPU, advancing the cursor by 4 (masked to `0x1ffffc`) before each
read.  Returns the final value of the local loop counter (always reaches 0),
the final cursor, and the bus. -/
def DMA.stream_node_words : Nat → Nat → Bus → Nat × Nat × Bus
  | 0, addr, bus => (0, addr, bus)
  | n + 1, addr, bus =>
    let addr1 := (addr + 4) &&& 0x1ffffc
    let bus1 := bus.gp0 (bus.mem_read_32 addr1)
    DMA.stream_node_words n addr1 bus1

/-- `DMA::tick_linked_list` from `dma.rs`.  A pending gap just increments
`gap_ticks`.  Otherwise the header at the cursor is fetched, its top 8 bits
many payload words are streamed to the GPU, the *left-over* loop counter
(which the loop has driven to 0) is added to `active_count`, and the cursor
moves to the header's low 24 bits; `0xffffff` there terminates the chain. -/
def DMA.tick_linked_list (ch : DmaChannel) (bus : Bus) : Option (DmaChannel × Bus × Int) :=
  if !ch.is_from_ram then none
  else if ch.channel_id != 2 then none
  else if ch.gap_ticks > 0 then some ({ ch with gap_ticks := ch.gap_ticks + 1 }, bus, 0)
  else
    let header := bus.mem_read_32 ch.active_address
    let s := DMA.stream_node_words (header >>> 24) ch.active_address bus
    let delta : Int := (s.1 : Int)
    let ch1 := { ch with active_address := header &&& 0x1ffffc }
    if header &&& 0xffffff == 0xffffff then some (ch1.finish, s.2.2, delta)
    else some ({ ch1 with gap_ticks := ch1.gap_ticks + 1 }, s.2.2, delta)

/-- One iteration of the channel sweep in `DMA::tick`: an active,
master-enabled channel is dispatched by synchronization mode, any other
channel is defensively finished. -/
def DMA.tick_channel (control : Nat) (ch : DmaChannel) (bus : Bus) :
    Option (DmaChannel × Bus × Int) :=
  if ch.is_active && DMA.is_master_enabled control ch.channel_id then
    match ch.synchronization_mode with
    | .LinkedList => DMA.tick_linked_list ch bus
    | .Manual => DMA.tick_manual ch bus
    | .Request => DMA.tick_request ch bus
  else some (ch.finish, bus, 0)

/-- The channel loop of `DMA::tick`: processes the channels in order,
folding each channel's contribution into `active_count`, adding
`active_count` to the returned cycle count and re-zeroing it after every
channel (so the final `active_count` is 0). -/
def DMA.tick_sweep (control : Nat) :
    List DmaChannel → Int → Bus → Option (List DmaChannel × Int × Bus × Int)
  | [], ac, bus => some ([], ac, bus, 0)
  | ch :: rest, ac, bus =>
    match DMA.tick_channel control ch bus with
    | none => none
    | some (ch1, bus1, delta) =>
      match DMA.tick_sweep control rest 0 bus1 with
      | none => none
      | some (rest1, acF, busF, countRest) =>
        some (ch1 :: rest1, acF, busF, (ac + delta) + countRest)

/-- `DMA::tick` from `dma.rs`: sweep all channels once and report the
accumulated cycle count. -/
def DMA.tick (d : DMA) (bus : Bus) : Option (DMA × Bus × Int) :=
  match DMA.tick_sweep d.control d.channels d.active_count bus with
  | none => none
  | some (chs, acF, busF, count) =>
    some ({ d with channels := chs, active_count := acF }, busF, count)

/-- `DMA::tick_gap` from `dma.rs`: obtain the cycles elapsed since the DMA
engine's last synchronization point and subtract them from the `gap_ticks`
of every channel whose `gap_ticks` is positive (plain subtraction, no
clamping in the source). -/
def DMA.tick_gap (d : DMA) (counter : Counter) : DMA × Counter :=
  let p := counter.sync_and_get_elapsed_cycles
  ({ d with channels := d.channels.map fun ch =>
      if ch.gap_ticks > 0 then { ch with gap_ticks := ch.gap_ticks - p.1 } else ch },
   p.2)

/-- `DMA::chopping_enabled` from `dma.rs`: some channel is active with its
chopping option set. -/
def DMA.chopping_enabled (d : DMA) : Bool :=
  d.channels.any fun ch => ch.is_active && ch.chopping_enabled

/-- `DMA::in_gap` from `dma.rs`: some channel has positive `gap_ticks`. -/
def DMA.in_gap (d : DMA) : Bool := d.channels.any fun ch => ch.gap_ticks > 0

/-- `DMA::is_active` from `dma.rs`: some channel is active. -/
def DMA.is_active (d : DMA) : Bool := d.channels.any fun ch => ch.is_active

/-- `DMA::read` from `dma.rs`: register window decode
(`major = (offset & 0x70) >> 4`, `minor = offset & 0xf`); `None` models the
panics on unhandled offsets. -/
def DMA.read (d : DMA) (address : Nat) : Option Nat :=
  let offset := address - 0x1f801080
  let major := (offset &&& 0x70) >>> 4
  let minor := offset &&& 0xf
  if major ≤ 6 then
    match d.channels.get? major with
    | none => none
    | some channel =>
      match minor with
      | 0 => some channel.base_address
      | 4 => some channel.block_control
      | 8 => some channel.control
      | _ => none
  else if major == 7 then
    match minor with
    | 0 => some d.control
    | 4 => some d.interrupt
    | 6 => some (d.interrupt >>> 16)
    | _ => none
  else none

/-- `DMA::write` from `dma.rs`: store into the decoded register
(base addresses are masked with `0xff_fffc`); if the written channel is then
active, re-derive its cursor state from `base_address` / `block_control`
according to the synchronization mode, zero `active_count`, and finish the
channel immediately when the derived `word_count` is 0.  The master
interrupt write stores the raw value (Modelled from the spec:
`DmaInterrupt::write` is not among the provided sources).

`activate_channel` is the activation block of `DMA::write`: re-derive the
cursor from `base_address`, initialize `word_count` (and, in Request mode,
`blocks_remaining`) per synchronization mode, and finish immediately when
the derived `word_count` is 0. -/
def DMA.activate_channel (ch1 : DmaChannel) : DmaChannel :=
  let chA := { ch1 with active_address := ch1.base_address &&& 0x1ffffc }
  let chB := match chA.synchronization_mode with
    | SyncMode.LinkedList => { chA with word_count := 1 }
    | SyncMode.Manual => { chA with word_count := chA.block_size }
    | SyncMode.Request => { chA with word_count := chA.block_size,
                                     blocks_remaining := chA.block_count }
  if chB.word_count == 0 then chB.finish else chB

/-- The register-store step of `DMA::write` for a channel slot: minor 0x0 is
`base_address` (masked with `0xff_fffc`), 0x4 is `block_control`, 0x8 is
`control`; other minors model the panic. -/
def DMA.update_reg (channel : DmaChannel) (minor value : Nat) : Option DmaChannel :=
  match minor with
  | 0 => some { channel with base_address := value &&& 0xfffffc }
  | 4 => some { channel with block_control := value }
  | 8 => some { channel with control := value }
  | _ => none

/-- The channel-slot branch of `DMA::write` (majors 0..6): store the
register, then, if the channel ends up active, run the activation block and
zero `active_count`. -/
def DMA.write_channel (d : DMA) (major minor value : Nat) : Option DMA :=
  match d.channels.get? major with
  | none => none
  | some channel =>
    match DMA.update_reg channel minor value with
    | none => none
    | some ch1 =>
      let p : DmaChannel × Int :=
        if ch1.is_active then (DMA.activate_channel ch1, 0)
        else (ch1, d.active_count)
      some { d with channels := d.channels.set major p.1, active_count := p.2 }

/-- `DMA::write` from `dma.rs`: decode the window offset and dispatch to the
channel slot (majors 0..6) or the master registers (major 7). -/
def DMA.write (d : DMA) (address value : Nat) : Option DMA :=
  let offset := address - 0x1f801080
  let major := (offset &&& 0x70) >>> 4
  let minor := offset &&& 0xf
  if major ≤ 6 then
    DMA.write_channel d major minor value
  else if major == 7 then
    match minor with
    | 0 => some { d with control := value }
    | 4 => some { d with interrupt := value }
    | _ => none
  else none

/-- CPU state from `cpu.rs`.  The 32 general-purpose registers are a list of
length 32; `load` is the pending-load slot `(target, value, delay)`.
The shared interrupt registers (`interrupt/…`, not among the provided
sources) appear only through the pending bit the CPU polls, modelled as the
`interrupts_pending` flag (Modelled from the spec).  The `free_cycles`
bookkeeping of `cpu.rs` is used only by the load helpers, which no claim
touches, and is not embedded. -/
structure CPU where
  pc : Nat
  next_pc : Nat
  current_pc : Nat
  r : List Nat
  cop0 : COP0
  branch : Bool
  delay_slot : Bool
  hi : Nat
  low : Nat
  bus : Bus
  load : Option (Nat × Nat × Nat)
  dma : DMA
  interrupts_pending : Bool

/-- `CPU::exception` from `cpu.rs`: enter the exception on COP0, save `epc`
(`pc` for an Interrupt, `current_pc` otherwise), apply the branch-delay
adjustment (`epc -= 4` wrapping and cause bit 31 set when `delay_slot`,
bit 31 cleared otherwise; `!(1 << 31)` on `u32` is `0x7fffffff`), and
redirect `pc` / `next_pc` to the vector. -/
def CPU.exception (c : CPU) (cause : Cause) : CPU :=
  let p := c.cop0.enter_exception cause
  let exception_address := p.1
  let epc0 := match cause with
    | .Interrupt => c.pc
    | _ => c.current_pc
  let cop1 :=
    if c.delay_slot then
      { p.2 with epc := (epc0 + 2 ^ 32 - 4) % 2 ^ 32, cause := p.2.cause ||| (1 <<< 31) }
    else
      { p.2 with epc := epc0, cause := p.2.cause &&& 0x7fffffff }
  { c with cop0 := cop1, pc := exception_address,
           next_pc := (exception_address + 4) % 2 ^ 32 }

/-- `CPU::check_irqs` from `cpu.rs`: refresh cause bit 10 from the shared
interrupt registers' pending state. -/
def CPU.check_irqs (c : CPU) : CPU :=
  { c with cop0 := c.cop0.set_interrupt c.interrupts_pending }

/-- `CPU::fetch_instruction` from `cpu.rs`: charge 4 bus cycles and read the
instruction word at `pc`. -/
def CPU.fetch_instruction (c : CPU) : Nat × CPU :=
  let c1 := { c with bus := { c.bus with counter := c.bus.counter.tick 4 } }
  (c1.bus.mem_read_32 c1.pc, c1)

/-- `CPU::tick_instruction` from `cpu.rs`: charge one cycle. -/
def CPU.tick_instruction (c : CPU) : CPU :=
  { c with bus := { c.bus with counter := c.bus.counter.tick 1 } }

/-- `CPU::set_reg` from `cpu.rs`: write the register unless it is `r0`. -/
def CPU.set_reg (c : CPU) (rt : Nat) (val : Nat) : CPU :=
  if rt != 0 then { c with r := c.r.set rt val } else c

/-- The instruction part of `CPU::step` (everything after the DMA arbitration
block).  The external decode/execute collaborator (`execute.rs`, not among
the provided sources) is the parameter `ex`; `eld` is
`execute_load_delay`. -/
def CPU.step_instr (ex : Nat → CPU → CPU) (eld : CPU → CPU) (c : CPU) : Option CPU :=
  let c0 := { c with current_pc := c.pc }
  if c0.current_pc &&& 0b11 != 0 then
    some (c0.exception Cause.LoadAddressError)
  else
    let c1 := c0.check_irqs
    let p := c1.fetch_instruction
    if p.2.cop0.interrupts_ready then
      some (eld (p.2.exception Cause.Interrupt))
    else
      let c3 := { p.2 with delay_slot := p.2.branch, branch := false,
                           pc := p.2.next_pc, next_pc := (p.2.next_pc + 4) % 2 ^ 32 }
      some (ex p.1 c3.tick_instruction)

/-- `CPU::step` from `cpu.rs`: DMA has first refusal on the bus — an active
engine either ticks a transfer (and the step ends) or counts down a gap
(the step ends too unless chopping lets the CPU run); only then does the
instruction part run. -/
def CPU.step (ex : Nat → CPU → CPU) (eld : CPU → CPU) (c : CPU) : Option CPU :=
  if c.dma.is_active then
    if c.dma.in_gap then
      let p := c.dma.tick_gap c.bus.counter
      let c1 := { c with dma := p.1, bus := { c.bus with counter := p.2 } }
      if !c1.dma.chopping_enabled then some c1
      else CPU.step_instr ex eld c1
    else
      match c.dma.tick c.bus with
      | none => none
      | some (dma1, bus1, count) =>
        some { c with dma := dma1,
                      bus := { bus1 with counter := bus1.counter.tick count } }
  else CPU.step_instr ex eld c

/-- A sample bus used by the concrete witness states. -/
def busW : Bus :=
  { mem := fun _ => 0, gp0_words := [],
    counter := { cycles := 0, dma_sync := 0 } }

/-- A sample CPU in the reset configuration of `CPU::new`, used by the
concrete witness states. -/
def cpuW : CPU :=
  { pc := 0xbfc00000, next_pc := 0xbfc00004, current_pc := 0xbfc00000,
    r := List.replicate 32 0,
    cop0 := { sr := 0, cause := 0, epc := 0 },
    branch := false, delay_slot := false, hi := 0, low := 0,
    bus := busW, load := none, dma := DMA.new, interrupts_pending := false }

/-- A channel with one outstanding gap tick, for the C8 states. -/
def chGapW : DmaChannel := { DmaChannel.new 0 with gap_ticks := 1 }

/-- A DMA state with channel 0 holding one outstanding gap tick. -/
def dmaGapW : DMA :=
  { DMA.new with channels := [chGapW,
      DmaChannel.new 1, DmaChannel.new 2, DmaChannel.new 3, DmaChannel.new 4,
      DmaChannel.new 5, DmaChannel.new 6] }

/-- A counter whose elapsed-cycles reading for the DMA engine is 5. -/
def counterW : Counter := { cycles := 5, dma_sync := 0 }

/-- A trivial decode/execute collaborator for the concrete witness states. -/
def exW : Nat → CPU → CPU := fun _ m => m

/-- A trivial `execute_load_delay` collaborator for the witness states. -/
def eldW : CPU → CPU := fun m => m

/-- The reset CPU with a misaligned `pc`, for the C4 witness. -/
def cpuMisW : CPU := { cpuW with pc := 0xbfc00001 }

/-- Channel 2 configured active (enable, Request mode, from-RAM), for the C6 witness. -/
def chActW : DmaChannel := { DmaChannel.new 2 with control := 0x01000201 }

/-- A DMA engine whose only active channel is `chActW`. -/
def dmaActW : DMA :=
  { DMA.new with channels := [DmaChannel.new 0, DmaChannel.new 1, chActW,
      DmaChannel.new 3, DmaChannel.new 4, DmaChannel.new 5, DmaChannel.new 6] }

/-- The reset CPU with the active DMA engine `dmaActW`. -/
def cActW : CPU := { cpuW with dma := dmaActW }

/-- The state `CPU.step` produces from `cActW`: channel 2 is defensively finished (its master-enable bit is clear in the default control word) and the CPU-visible state is untouched. -/
def cResW : CPU :=
  { cpuW with
    dma := { DMA.new with channels := [DmaChannel.new 0, DmaChannel.new 1,
        { DmaChannel.new 2 with control := 0x201 }, DmaChannel.new 3,
        DmaChannel.new 4, DmaChannel.new 5, DmaChannel.new 6] },
    bus := { busW with counter := { cycles := 0, dma_sync := 0 } } }

/-- A DMA engine whose only serviced channel (2) is active in linked-list
mode and master-enabled, for the C10 witness. -/
def dmaLLW : DMA :=
  { DMA.new with
      control := 0x07654b21
      channels := [DmaChannel.new 0, DmaChannel.new 1,
        { DmaChannel.new 2 with control := 0x01000401 }, DmaChannel.new 3,
        DmaChannel.new 4, DmaChannel.new 5, DmaChannel.new 6] }

/-- The per-word cursor move of the request/manual tick: +4 or -4 (wrapping)
by the control register direction bit. -/
def addrStep (v a : Nat) : Nat :=
  if (v >>> 1) &&& 1 == 0 then (a + 4) % 2 ^ 32 else (a + 2 ^ 32 - 4) % 2 ^ 32

/-- A channel-2 state in the Request-mode run: raw `control` value `v`,
raw `block_control` `bc`, cursor `a`, `w` words left in the current block,
`r` blocks remaining, `g` accumulated gap ticks. -/
def reqCh (v bc ba a w r : Nat) (g : Int) : DmaChannel :=
  { channel_id := 2, base_address := ba, block_control := bc, control := v,
    active_address := a, word_count := w, blocks_remaining := r, gap_ticks := g }

/-- A DMA engine whose only non-fresh channel is the Request-mode channel 2
state `reqCh v bc ba a w r g`. -/
def reqDma (ctrl ir v bc ba a w r : Nat) (g : Int) : DMA :=
  { control := ctrl, interrupt := ir,
    channels := [DmaChannel.new 0, DmaChannel.new 1, reqCh v bc ba a w r g,
                 DmaChannel.new 3, DmaChannel.new 4, DmaChannel.new 5,
                 DmaChannel.new 6],
    active_count := 0 }

/-- One `DMA::tick` step on a (engine, bus) pair, dropping the cycle count. -/
def tickPair (s : DMA × Bus) : Option (DMA × Bus) :=
  (DMA.tick s.1 s.2).map fun t => (t.1, t.2.1)

/-- `n` repeated `DMA::tick` calls (the "repeated tick calls" of the
Request-mode schedule), stopping on a fault. -/
def ticksN : Nat → (DMA × Bus) → Option (DMA × Bus)
  | 0, s => some s
  | n + 1, s =>
    match tickPair s with
    | none => none
    | some s1 => ticksN n s1

/-- `bus` after a list of words has been streamed to the GPU intake. -/
def busApp (bus : Bus) (gw : List Nat) : Bus :=
  { mem := bus.mem, gp0_words := bus.gp0_words ++ gw, counter := bus.counter }

/-! Bitwise toolkit: the handful of `Nat` facts the register proofs need. -/

theorem land_mask_eq_mod (a k : Nat) : a &&& (2 ^ k - 1) = a % 2 ^ k := by
  apply Nat.eq_of_testBit_eq
  intro i
  simp [Nat.testBit_and, Nat.testBit_mod_two_pow, Nat.testBit_two_pow_sub_one,
    Bool.and_comm]

theorem lor_land_distrib (a b c : Nat) : (a ||| b) &&& c = (a &&& c) ||| (b &&& c) := by
  apply Nat.eq_of_testBit_eq
  intro i
  simp [Nat.testBit_and, Nat.testBit_or, Bool.and_or_distrib_right]

theorem land_assoc3 (a b c : Nat) : (a &&& b) &&& c = a &&& (b &&& c) := by
  apply Nat.eq_of_testBit_eq
  intro i
  simp [Nat.testBit_and, Bool.and_assoc]

theorem lor_shiftRight (a b n : Nat) : (a ||| b) >>> n = (a >>> n) ||| (b >>> n) := by
  apply Nat.eq_of_testBit_eq
  intro i
  simp [Nat.testBit_or, Nat.testBit_shiftRight]

theorem land_small (a k : Nat) (h : a < 2 ^ k) : a &&& (2 ^ k - 1) = a := by
  rw [land_mask_eq_mod, Nat.mod_eq_of_lt h]

theorem land_highmask_shiftRight (a s m : Nat) (ha : a < 2 ^ (s + m)) :
    (a &&& ((2 ^ m - 1) <<< s)) >>> s = a >>> s := by
  apply Nat.eq_of_testBit_eq
  intro i
  simp [Nat.testBit_and, Nat.testBit_shiftRight, Nat.testBit_shiftLeft,
    Nat.testBit_two_pow_sub_one]
  by_cases h : i < m
  · simp [h, Nat.le_add_right]
  · simp [h]
    have : a.testBit (s + i) = false :=
      Nat.testBit_lt_two_pow
        (Nat.lt_of_lt_of_le ha (Nat.pow_le_pow_right (by omega) (by omega)))
    simp [this]

/-! Unfolding lemmas: the exception path restated as explicit records
(each is definitional, proved by `rfl`). -/

theorem enter_exception_unfold (z : COP0) (cause : Cause) :
    z.enter_exception cause =
      ((if z.bev = true then 0xbfc00180 else 0x80000080 : Nat),
       { z with sr := (z.sr &&& 0xffffffc0) ||| (((z.sr &&& 0x3f) <<< 2) &&& 0x3f),
                cause := (z.cause &&& 0xffffff83) ||| (cause.toNat <<< 2) }) := rfl

theorem exception_unfold (c : CPU) (cause : Cause) :
    c.exception cause =
      { c with
        cop0 :=
          (if c.delay_slot then
            { (c.cop0.enter_exception cause).2 with
                epc := ((match cause with
                         | Cause.Interrupt => c.pc
                         | _ => c.current_pc) + 2 ^ 32 - 4) % 2 ^ 32,
                cause := (c.cop0.enter_exception cause).2.cause ||| 1 <<< 31 }
           else
            { (c.cop0.enter_exception cause).2 with
                epc := (match cause with
                        | Cause.Interrupt => c.pc
                        | _ => c.current_pc),
                cause := (c.cop0.enter_exception cause).2.cause &&& 0x7fffffff }),
        pc := (c.cop0.enter_exception cause).1,
        next_pc := ((c.cop0.enter_exception cause).1 + 4) % 2 ^ 32 } := rfl

theorem exception_pc_val (c : CPU) (cause : Cause) :
    (c.exception cause).pc = if c.cop0.bev = true then 0xbfc00180 else 0x80000080 := by
  rw [exception_unfold, enter_exception_unfold]

theorem exception_next_pc_val (c : CPU) (cause : Cause) :
    (c.exception cause).next_pc = (c.exception cause).pc + 4 := by
  rw [exception_unfold, enter_exception_unfold]
  show ((if c.cop0.bev = true then (0xbfc00180 : Nat) else 0x80000080) + 4) % 2 ^ 32
      = (if c.cop0.bev = true then (0xbfc00180 : Nat) else 0x80000080) + 4
  split <;> norm_num

theorem exception_epc_delay (c : CPU) (cause : Cause) (hd : c.delay_slot = true) :
    (c.exception cause).cop0.epc
      = ((match cause with
          | Cause.Interrupt => c.pc
          | _ => c.current_pc) + 2 ^ 32 - 4) % 2 ^ 32 := by
  rw [exception_unfold]
  simp only [hd, if_true]

theorem exception_epc_nodelay (c : CPU) (cause : Cause) (hd : c.delay_slot = false) :
    (c.exception cause).cop0.epc
      = (match cause with
         | Cause.Interrupt => c.pc
         | _ => c.current_pc) := by
  rw [exception_unfold]
  simp only [hd, Bool.false_eq_true, if_false]

theorem exception_cause31_delay (c : CPU) (cause : Cause) (hd : c.delay_slot = true) :
    (c.exception cause).cop0.cause.testBit 31 = true := by
  rw [exception_unfold]
  simp only [hd, if_true]
  show ((c.cop0.enter_exception cause).2.cause ||| 1 <<< 31).testBit 31 = true
  simp only [Nat.testBit_or]
  have hbit : Nat.testBit (1 <<< 31) 31 = true := by decide
  rw [hbit, Bool.or_true]

theorem exception_cause31_nodelay (c : CPU) (cause : Cause) (hd : c.delay_slot = false) :
    (c.exception cause).cop0.cause.testBit 31 = false := by
  rw [exception_unfold]
  simp only [hd, Bool.false_eq_true, if_false]
  show ((c.cop0.enter_exception cause).2.cause &&& 0x7fffffff).testBit 31 = false
  simp only [Nat.testBit_and]
  have hbit : Nat.testBit 0x7fffffff 31 = false := by decide
  rw [hbit, Bool.and_false]

/-! Claim theorems. -/

/-- Claim C1: `exception(cause)` saves in `epc` the faulting address
(`pc` for an Interrupt, `current_pc` otherwise), subtracting 4 and setting
cause bit 31 when the fault is in a branch-delay slot and clearing bit 31
otherwise, and then redirects `pc` to the exception vector and `next_pc`
to the vector plus 4. -/
theorem exception_epc_delay_and_vector (c : CPU) (cause : Cause) (fault : Nat)
    (hf : (match cause with | Cause.Interrupt => c.pc | _ => c.current_pc) = fault)
    (h4 : 4 ≤ fault) (h32 : fault < 2 ^ 32) :
    ((c.exception cause).pc = if c.cop0.bev = true then 0xbfc00180 else 0x80000080) ∧
    (c.exception cause).next_pc = (c.exception cause).pc + 4 ∧
    (c.delay_slot = true →
      (c.exception cause).cop0.epc = fault - 4 ∧
      (c.exception cause).cop0.cause.testBit 31 = true) ∧
    (c.delay_slot = false →
      (c.exception cause).cop0.epc = fault ∧
      (c.exception cause).cop0.cause.testBit 31 = false) := by
  refine ⟨exception_pc_val c cause, exception_next_pc_val c cause, ?_, ?_⟩
  · intro hd
    refine ⟨?_, exception_cause31_delay c cause hd⟩
    rw [exception_epc_delay c cause hd, hf]
    omega
  · intro hd
    refine ⟨?_, exception_cause31_nodelay c cause hd⟩
    rw [exception_epc_nodelay c cause hd, hf]

/-- Witness for C1 at a concrete state: a `SysCall` exception with
`delay_slot` false and `current_pc = 0xbfc00000`. -/
theorem exception_epc_delay_and_vector_witness :
    ((match Cause.SysCall with
      | Cause.Interrupt => cpuW.pc
      | _ => cpuW.current_pc) = 0xbfc00000) ∧
    4 ≤ 0xbfc00000 ∧ 0xbfc00000 < 2 ^ 32 ∧
    (((cpuW.exception Cause.SysCall).pc =
        if cpuW.cop0.bev = true then 0xbfc00180 else 0x80000080) ∧
     (cpuW.exception Cause.SysCall).next_pc = (cpuW.exception Cause.SysCall).pc + 4 ∧
     (cpuW.delay_slot = true →
       (cpuW.exception Cause.SysCall).cop0.epc = 0xbfc00000 - 4 ∧
       (cpuW.exception Cause.SysCall).cop0.cause.testBit 31 = true) ∧
     (cpuW.delay_slot = false →
       (cpuW.exception Cause.SysCall).cop0.epc = 0xbfc00000 ∧
       (cpuW.exception Cause.SysCall).cop0.cause.testBit 31 = false)) :=
  ⟨rfl, by decide, by decide,
   exception_epc_delay_and_vector cpuW Cause.SysCall 0xbfc00000 rfl (by decide) (by decide)⟩

/-- Counterexample to claim C2: with `sr = 0x30` (both level-3 stack bits
set), `return_from_exception` leaves `sr & 0x3f = 0x3c`, not
`(0x30 & 0x3f) >> 2 = 0xc`, because the source clears only the low 4 bits
(`sr &= !0xf`), keeping stack bits 4-5 in place. -/
theorem return_from_exception_stack_counterexample :
    ¬ ((COP0.return_from_exception { sr := 0x30, cause := 0, epc := 0 }).sr &&& 0x3f
        = ((0x30 &&& 0x3f) >>> 2 : Nat)) := by
  decide

/-- Claim C2 (amended): `return_from_exception` pops only the lower two
stack entries: afterwards `sr & 0xf = (old_sr & 0x3f) >> 2`, and all bits
of `sr` from bit 4 up (including mode-stack bits 4-5) are unchanged;
`cause` and `epc` are untouched. -/
theorem return_from_exception_pops_low_stack (z : COP0) (h : z.sr < 2 ^ 32) :
    ((z.return_from_exception).sr &&& 0xf = (z.sr &&& 0x3f) >>> 2) ∧
    ((z.return_from_exception).sr >>> 4 = z.sr >>> 4) ∧
    (z.return_from_exception).cause = z.cause ∧
    (z.return_from_exception).epc = z.epc := by
  unfold COP0.return_from_exception
  refine ⟨?_, ?_, rfl, rfl⟩
  · simp only [lor_land_distrib, land_assoc3]
    have h1 : (0xfffffff0 : Nat) &&& 0xf = 0 := by decide
    have h2 : (z.sr &&& 0x3f) >>> 2 &&& 0xf = (z.sr &&& 0x3f) >>> 2 := by
      have hle : (z.sr &&& 0x3f) >>> 2 < 2 ^ 4 := by
        have h1 := Nat.and_le_right (n := z.sr) (m := 0x3f)
        rw [Nat.shiftRight_eq_div_pow]
        omega
      have := land_small ((z.sr &&& 0x3f) >>> 2) 4 hle
      simpa using this
    rw [h1, h2, Nat.and_zero, Nat.zero_or]
  · rw [lor_shiftRight]
    have hmask : (0xfffffff0 : Nat) = (2 ^ 28 - 1) <<< 4 := by
      norm_num [Nat.shiftLeft_eq]
    have h1 : (z.sr &&& 0xfffffff0) >>> 4 = z.sr >>> 4 := by
      rw [hmask, land_highmask_shiftRight z.sr 4 28 (by norm_num at h ⊢; omega)]
    have h2 : (z.sr &&& 0x3f) >>> 2 >>> 4 = 0 := by
      have hle : (z.sr &&& 0x3f) >>> 2 < 2 ^ 4 := by
        have h1 := Nat.and_le_right (n := z.sr) (m := 0x3f)
        rw [Nat.shiftRight_eq_div_pow]
        omega
      rw [Nat.shiftRight_eq_div_pow]
      omega
    rw [h1, h2, Nat.or_zero]

/-- Witness for the amended C2 at a concrete state (`sr = 0x3f`). -/
theorem return_from_exception_pops_low_stack_witness :
    ((0x3f : Nat) < 2 ^ 32) ∧
    (((COP0.return_from_exception { sr := 0x3f, cause := 7, epc := 9 }).sr &&& 0xf
        = ((0x3f : Nat) &&& 0x3f) >>> 2) ∧
     ((COP0.return_from_exception { sr := 0x3f, cause := 7, epc := 9 }).sr >>> 4
        = (0x3f : Nat) >>> 4) ∧
     (COP0.return_from_exception { sr := 0x3f, cause := 7, epc := 9 }).cause = 7 ∧
     (COP0.return_from_exception { sr := 0x3f, cause := 7, epc := 9 }).epc = 9) :=
  ⟨by decide,
   return_from_exception_pops_low_stack { sr := 0x3f, cause := 7, epc := 9 } (by decide)⟩

/-- Claim C3: `enter_exception(cause)` returns `0xbfc0_0180` when the
boot-exception-vector bit is set and `0x8000_0080` otherwise, replaces the
low 6 bits of `sr` by the left-shifted mode stack
`((sr & 0x3f) << 2) & 0x3f`, keeps the bits of `sr` above bit 5, and
writes the cause code into bits 2..6 of the cause register. -/
theorem enter_exception_vector_stack_cause (z : COP0) (cause : Cause) :
    ((COP0.enter_exception z cause).1
        = if z.bev = true then 0xbfc00180 else 0x80000080) ∧
    ((COP0.enter_exception z cause).2.sr &&& 0x3f
        = ((z.sr &&& 0x3f) <<< 2) &&& 0x3f) ∧
    ((COP0.enter_exception z cause).2.cause &&& 0x7c = cause.toNat <<< 2) := by
  unfold COP0.enter_exception
  refine ⟨by split <;> simp, ?_, ?_⟩
  · simp only [lor_land_distrib, land_assoc3]
    have h1 : (0xffffffc0 : Nat) &&& 0x3f = 0 := by decide
    have h2 : (0x3f : Nat) &&& 0x3f = 0x3f := by decide
    rw [h1, h2, Nat.and_zero, Nat.zero_or]
  · simp only [lor_land_distrib, land_assoc3]
    have h1 : (0xffffff83 : Nat) &&& 0x7c = 0 := by decide
    rw [h1, Nat.and_zero, Nat.zero_or]
    cases cause <;> decide

/-- Claim C9: `set_reg(0, v)` is a silent no-op (register 0 stays 0), and
for `1 ≤ rt ≤ 31`, `set_reg(rt, v)` stores `v` into register `rt` and
changes no other register. -/
theorem set_reg_zero_noop_and_updates (c : CPU) (v : Nat)
    (hlen : c.r.length = 32) (h0 : c.r[0]? = some 0) :
    (c.set_reg 0 v = c ∧ (c.set_reg 0 v).r[0]? = some 0) ∧
    (∀ rt, 1 ≤ rt → rt ≤ 31 →
      (c.set_reg rt v).r[rt]? = some v ∧
      ∀ j, j ≠ rt → (c.set_reg rt v).r[j]? = c.r[j]?) := by
  constructor
  · constructor
    · simp [CPU.set_reg]
    · simp [CPU.set_reg, h0]
  · intro rt h1 h31
    constructor
    · have hne : (rt != 0) = true := by
        simp only [bne_iff_ne, ne_eq]
        omega
      simp only [CPU.set_reg, hne, if_pos]
      rw [List.getElem?_set_self]
      omega
    · intro j hj
      have hne : (rt != 0) = true := by
        simp only [bne_iff_ne, ne_eq]
        omega
      simp only [CPU.set_reg, hne, if_pos]
      rw [List.getElem?_set_ne]
      omega

/-- Witness for C9 at the reset-state CPU. -/
theorem set_reg_zero_noop_and_updates_witness :
    (cpuW.r.length = 32 ∧ cpuW.r[0]? = some 0) ∧
    ((cpuW.set_reg 0 5 = cpuW ∧ (cpuW.set_reg 0 5).r[0]? = some 0) ∧
     (∀ rt, 1 ≤ rt → rt ≤ 31 →
       (cpuW.set_reg rt 5).r[rt]? = some 5 ∧
       ∀ j, j ≠ rt → (cpuW.set_reg rt 5).r[j]? = cpuW.r[j]?)) :=
  ⟨⟨by decide, by decide⟩,
   set_reg_zero_noop_and_updates cpuW 5 (by decide) (by decide)⟩

/-- Counterexample to claim C8: with one outstanding gap tick and 5 elapsed
cycles, `tick_gap` drives `gap_ticks` to `-4` — the countdown is driven past
zero, not stopped at the point where the channel should resume. -/
theorem tick_gap_counterexample :
    ((DMA.tick_gap dmaGapW counterW).1.channels.head?.map DmaChannel.gap_ticks
      = some (-4)) ∧ (-4 : Int) < 0 := by
  constructor
  · rfl
  · decide

/-- Claim C8 (amended): `tick_gap(counter)` computes the cycles elapsed
since the DMA engine's last synchronization point
(`counter.cycles - counter.dma_sync`, the checkpoint then moving to the
current count) and decrements the `gap_ticks` of every channel whose
`gap_ticks` is positive by exactly that amount, with no lower clamp (the
value can pass zero); channels with no outstanding gap ticks are
unchanged. -/
theorem tick_gap_decrements_by_elapsed (d : DMA) (counter : Counter) (i : Nat)
    (ch : DmaChannel) (hch : d.channels[i]? = some ch) :
    (DMA.tick_gap d counter).2
        = { cycles := counter.cycles, dma_sync := counter.cycles } ∧
    ∃ ch', (DMA.tick_gap d counter).1.channels[i]? = some ch' ∧
      (0 < ch.gap_ticks →
        ch' = { ch with gap_ticks := ch.gap_ticks - (counter.cycles - counter.dma_sync) }) ∧
      (¬ 0 < ch.gap_ticks → ch' = ch) := by
  refine ⟨rfl, ?_⟩
  refine ⟨if ch.gap_ticks > 0
          then { ch with gap_ticks := ch.gap_ticks - (counter.cycles - counter.dma_sync) }
          else ch, ?_, ?_, ?_⟩
  · simp only [DMA.tick_gap, Counter.sync_and_get_elapsed_cycles]
    rw [List.getElem?_map, hch]
    rfl
  · intro hpos
    rw [if_pos hpos]
  · intro hneg
    rw [if_neg hneg]

/-- Witness for the amended C8 at the concrete gap state. -/
theorem tick_gap_decrements_by_elapsed_witness :
    (dmaGapW.channels[0]? = some chGapW) ∧
    ((DMA.tick_gap dmaGapW counterW).2
        = { cycles := counterW.cycles, dma_sync := counterW.cycles } ∧
     ∃ ch', (DMA.tick_gap dmaGapW counterW).1.channels[0]? = some ch' ∧
       (0 < chGapW.gap_ticks →
         ch' = { chGapW with
                   gap_ticks := chGapW.gap_ticks - (counterW.cycles - counterW.dma_sync) }) ∧
       (¬ 0 < chGapW.gap_ticks → ch' = chGapW)) :=
  ⟨rfl, tick_gap_decrements_by_elapsed dmaGapW counterW 0 chGapW rfl⟩

/-! Register-window decode facts and round-trip lemmas for the DMA
register file. -/

theorem land_shiftRight (a b n : Nat) : (a &&& b) >>> n = (a >>> n) &&& (b >>> n) := by
  apply Nat.eq_of_testBit_eq
  intro i
  simp [Nat.testBit_and, Nat.testBit_shiftRight]

theorem decode_major (i m : Nat) (hm : m < 16) (hi : i ≤ 6) :
    ((16 * i + m) &&& 0x70) >>> 4 = i := by
  rw [land_shiftRight]
  have h1 : (16 * i + m) >>> 4 = i := by
    rw [Nat.shiftRight_eq_div_pow]
    omega
  have h2 : (0x70 : Nat) >>> 4 = 7 := by decide
  rw [h1, h2, show (7 : Nat) = 2 ^ 3 - 1 by norm_num, land_mask_eq_mod]
  omega

theorem decode_minor (i m : Nat) (hm : m < 16) : (16 * i + m) &&& 0xf = m := by
  rw [show (0xf : Nat) = 2 ^ 4 - 1 by norm_num, land_mask_eq_mod]
  omega

theorem activate_channel_base (ch1 : DmaChannel) :
    (DMA.activate_channel ch1).base_address = ch1.base_address := by
  unfold DMA.activate_channel
  rcases hsm : ({ ch1 with active_address := ch1.base_address &&& 0x1ffffc } : DmaChannel).synchronization_mode <;>
    simp only [hsm] <;> split <;> rfl

theorem activate_channel_block_control (ch1 : DmaChannel) :
    (DMA.activate_channel ch1).block_control = ch1.block_control := by
  unfold DMA.activate_channel
  rcases hsm : ({ ch1 with active_address := ch1.base_address &&& 0x1ffffc } : DmaChannel).synchronization_mode <;>
    simp only [hsm] <;> split <;> rfl

theorem activate_channel_control (ch1 : DmaChannel)
    (h : (match ch1.synchronization_mode with
          | SyncMode.LinkedList => (1 : Nat)
          | _ => ch1.block_size) ≠ 0) :
    (DMA.activate_channel ch1).control = ch1.control := by
  simp only [DMA.activate_channel, DmaChannel.synchronization_mode,
    DmaChannel.block_size] at h ⊢
  generalize hk : ch1.control >>> 9 &&& 3 = k at h ⊢
  have hk3 : k ≤ 3 := by
    rw [← hk]
    exact Nat.and_le_right
  interval_cases k <;> simp_all [DmaChannel.finish]

theorem read_unfold (d : DMA) (address : Nat) :
    DMA.read d address =
      (if ((address - 0x1f801080) &&& 0x70) >>> 4 ≤ 6 then
        match d.channels.get? (((address - 0x1f801080) &&& 0x70) >>> 4) with
        | none => none
        | some channel =>
          match (address - 0x1f801080) &&& 0xf with
          | 0 => some channel.base_address
          | 4 => some channel.block_control
          | 8 => some channel.control
          | _ => none
      else if ((address - 0x1f801080) &&& 0x70) >>> 4 == 7 then
        match (address - 0x1f801080) &&& 0xf with
        | 0 => some d.control
        | 4 => some d.interrupt
        | 6 => some (d.interrupt >>> 16)
        | _ => none
      else none) := rfl

theorem write_unfold (d : DMA) (address value : Nat) :
    DMA.write d address value =
      (if ((address - 0x1f801080) &&& 0x70) >>> 4 ≤ 6 then
        DMA.write_channel d (((address - 0x1f801080) &&& 0x70) >>> 4)
          ((address - 0x1f801080) &&& 0xf) value
      else if ((address - 0x1f801080) &&& 0x70) >>> 4 == 7 then
        match (address - 0x1f801080) &&& 0xf with
        | 0 => some { d with control := value }
        | 4 => some { d with interrupt := value }
        | _ => none
      else none) := rfl

theorem write_read_base_address (d : DMA) (i v : Nat) (ch : DmaChannel)
    (hi : i ≤ 6) (hch : d.channels[i]? = some ch) :
    (DMA.write d (0x1f801080 + 16 * i) v).bind
        (fun d1 => DMA.read d1 (0x1f801080 + 16 * i)) = some (v &&& 0xfffffc) := by
  have hlen : i < d.channels.length := (List.getElem?_eq_some.mp hch).1
  have hget : d.channels.get? i = some ch := by
    rw [List.get?_eq_getElem?]
    exact hch
  have hoff : 0x1f801080 + 16 * i - 0x1f801080 = 16 * i := by omega
  have hmaj : ((16 * i) &&& 0x70) >>> 4 = i := by
    have := decode_major i 0 (by omega) hi
    simpa using this
  have hmin : (16 * i) &&& 0xf = 0 := by
    have := decode_minor i 0 (by omega)
    simpa using this
  rw [write_unfold, hoff, hmaj, hmin, if_pos hi]
  simp only [DMA.write_channel, hget, DMA.update_reg]
  rw [Option.some_bind]
  rw [read_unfold]
  simp only [hoff, hmaj, hmin]
  rw [if_pos hi]
  rw [List.get?_eq_getElem?, List.getElem?_set_self hlen]
  dsimp only
  split
  · rw [activate_channel_base]
  · rfl

theorem write_read_block_control (d : DMA) (i v : Nat) (ch : DmaChannel)
    (hi : i ≤ 6) (hch : d.channels[i]? = some ch) :
    (DMA.write d (0x1f801080 + 16 * i + 4) v).bind
        (fun d1 => DMA.read d1 (0x1f801080 + 16 * i + 4)) = some v := by
  have hlen : i < d.channels.length := (List.getElem?_eq_some.mp hch).1
  have hget : d.channels.get? i = some ch := by
    rw [List.get?_eq_getElem?]
    exact hch
  have hoff : 0x1f801080 + 16 * i + 4 - 0x1f801080 = 16 * i + 4 := by omega
  have hmaj : ((16 * i + 4) &&& 0x70) >>> 4 = i := decode_major i 4 (by omega) hi
  have hmin : (16 * i + 4) &&& 0xf = 4 := decode_minor i 4 (by omega)
  rw [write_unfold, hoff, hmaj, hmin, if_pos hi]
  simp only [DMA.write_channel, hget, DMA.update_reg]
  rw [Option.some_bind]
  rw [read_unfold]
  simp only [hoff, hmaj, hmin]
  rw [if_pos hi]
  rw [List.get?_eq_getElem?, List.getElem?_set_self hlen]
  dsimp only
  split
  · rw [activate_channel_block_control]
  · rfl

theorem write_read_control (d : DMA) (i v : Nat) (ch : DmaChannel)
    (hi : i ≤ 6) (hch : d.channels[i]? = some ch)
    (hwc : ({ ch with control := v } : DmaChannel).is_active = true →
      (match ({ ch with control := v } : DmaChannel).synchronization_mode with
       | SyncMode.LinkedList => (1 : Nat)
       | _ => ({ ch with control := v } : DmaChannel).block_size) ≠ 0) :
    (DMA.write d (0x1f801080 + 16 * i + 8) v).bind
        (fun d1 => DMA.read d1 (0x1f801080 + 16 * i + 8)) = some v := by
  have hlen : i < d.channels.length := (List.getElem?_eq_some.mp hch).1
  have hget : d.channels.get? i = some ch := by
    rw [List.get?_eq_getElem?]
    exact hch
  have hoff : 0x1f801080 + 16 * i + 8 - 0x1f801080 = 16 * i + 8 := by omega
  have hmaj : ((16 * i + 8) &&& 0x70) >>> 4 = i := decode_major i 8 (by omega) hi
  have hmin : (16 * i + 8) &&& 0xf = 8 := decode_minor i 8 (by omega)
  rw [write_unfold, hoff, hmaj, hmin, if_pos hi]
  simp only [DMA.write_channel, hget, DMA.update_reg]
  rw [Option.some_bind]
  rw [read_unfold]
  simp only [hoff, hmaj, hmin]
  rw [if_pos hi]
  rw [List.get?_eq_getElem?, List.getElem?_set_self hlen]
  dsimp only
  split
  · next hact =>
    rw [activate_channel_control _ (hwc hact)]
  · rfl

/-- Counterexample to claim C7: on a fresh DMA engine, writing 1 to channel
0's base-address register and reading it back yields 0, not 1, because the
write masks the value with `0xff_fffc`. -/
theorem dma_register_roundtrip_counterexample :
    ¬ ((DMA.write DMA.new 0x1f801080 1).bind
        (fun d1 => DMA.read d1 0x1f801080) = some 1) := by
  decide

/-- Claim C7 (amended): for every channel 0..6, writing `v` to the
block-control register (minor 0x4) reads back exactly `v`; writing `v` to
the base-address register (minor 0x0) reads back `v & 0xff_fffc` (the write
masks to a word-aligned 24-bit address); writing `v` to the channel-control
register (minor 0x8) reads back exactly `v` provided the write does not
activate the channel with a derived word count of 0 (in that case `finish`
immediately clears the enable/trigger bits in the stored value). -/
theorem dma_register_roundtrip (d : DMA) (i v : Nat) (ch : DmaChannel)
    (hi : i ≤ 6) (hch : d.channels[i]? = some ch)
    (hwc : ({ ch with control := v } : DmaChannel).is_active = true →
      (match ({ ch with control := v } : DmaChannel).synchronization_mode with
       | SyncMode.LinkedList => (1 : Nat)
       | _ => ({ ch with control := v } : DmaChannel).block_size) ≠ 0) :
    ((DMA.write d (0x1f801080 + 16 * i) v).bind
        (fun d1 => DMA.read d1 (0x1f801080 + 16 * i)) = some (v &&& 0xfffffc)) ∧
    ((DMA.write d (0x1f801080 + 16 * i + 4) v).bind
        (fun d1 => DMA.read d1 (0x1f801080 + 16 * i + 4)) = some v) ∧
    ((DMA.write d (0x1f801080 + 16 * i + 8) v).bind
        (fun d1 => DMA.read d1 (0x1f801080 + 16 * i + 8)) = some v) :=
  ⟨write_read_base_address d i v ch hi hch,
   write_read_block_control d i v ch hi hch,
   write_read_control d i v ch hi hch hwc⟩

/-- Witness for the amended C7 on a fresh DMA engine, channel 0,
value `0x12345678`. -/
theorem dma_register_roundtrip_witness :
    ((0 : Nat) ≤ 6) ∧ (DMA.new.channels[0]? = some (DmaChannel.new 0)) ∧
    (((DMA.write DMA.new (0x1f801080 + 16 * 0) 0x12345678).bind
        (fun d1 => DMA.read d1 (0x1f801080 + 16 * 0)) = some (0x12345678 &&& 0xfffffc)) ∧
     ((DMA.write DMA.new (0x1f801080 + 16 * 0 + 4) 0x12345678).bind
        (fun d1 => DMA.read d1 (0x1f801080 + 16 * 0 + 4)) = some 0x12345678) ∧
     ((DMA.write DMA.new (0x1f801080 + 16 * 0 + 8) 0x12345678).bind
        (fun d1 => DMA.read d1 (0x1f801080 + 16 * 0 + 8)) = some 0x12345678)) :=
  ⟨by decide, rfl,
   dma_register_roundtrip DMA.new 0 0x12345678 (DmaChannel.new 0)
     (by decide) rfl (by decide)⟩

theorem step_no_dma (ex : Nat → CPU → CPU) (eld : CPU → CPU) (c : CPU)
    (hd : c.dma.is_active = false) :
    CPU.step ex eld c = CPU.step_instr ex eld c := by
  unfold CPU.step
  rw [if_neg (by simp [hd])]

theorem exception_bus (c : CPU) (cause : Cause) : (c.exception cause).bus = c.bus := rfl

theorem land_three_eq_mod (a : Nat) : a &&& 3 = a % 4 := by
  have := land_mask_eq_mod a 2
  norm_num at this
  exact this

theorem exception_cause_code (c : CPU) (cause : Cause) :
    (c.exception cause).cop0.cause &&& 0x7c = cause.toNat <<< 2 := by
  have hbase := (enter_exception_vector_stack_cause c.cop0 cause).2.2
  rw [exception_unfold]
  dsimp only
  split
  · dsimp only
    rw [enter_exception_unfold]
    rw [enter_exception_unfold] at hbase
    dsimp only at hbase ⊢
    rw [lor_land_distrib]
    have h1 : (1 <<< 31 : Nat) &&& 0x7c = 0 := by decide
    rw [h1, Nat.or_zero]
    exact hbase
  · dsimp only
    rw [enter_exception_unfold]
    rw [enter_exception_unfold] at hbase
    dsimp only at hbase ⊢
    rw [land_assoc3]
    have h1 : (0x7fffffff : Nat) &&& 0x7c = 0x7c := by decide
    rw [h1]
    exact hbase

/-- Claim C4: with no DMA channel active and a misaligned `pc`, `step`
raises `LoadAddressError` (redirecting `pc` to the exception vector and
writing the cause code), fetches nothing from the bus (the bus, its memory
and its cycle counter are untouched), and executes no instruction (the
result does not depend on the decode/execute collaborators). -/
theorem step_misaligned_raises_load_address_error
    (ex ex2 : Nat → CPU → CPU) (eld eld2 : CPU → CPU) (c : CPU)
    (hd : c.dma.is_active = false) (ha : c.pc % 4 ≠ 0) :
    (CPU.step ex eld c
      = some (CPU.exception { c with current_pc := c.pc } Cause.LoadAddressError)) ∧
    CPU.step ex eld c = CPU.step ex2 eld2 c ∧
    ∀ c2, CPU.step ex eld c = some c2 →
      c2.bus = c.bus ∧
      c2.pc = (if c.cop0.bev = true then 0xbfc00180 else 0x80000080) ∧
      c2.cop0.cause &&& 0x7c = Cause.LoadAddressError.toNat <<< 2 := by
  have key : ∀ (ex3 : Nat → CPU → CPU) (eld3 : CPU → CPU),
      CPU.step ex3 eld3 c
        = some (CPU.exception { c with current_pc := c.pc } Cause.LoadAddressError) := by
    intro ex3 eld3
    rw [step_no_dma ex3 eld3 c hd]
    unfold CPU.step_instr
    rw [if_pos]
    show ((({ c with current_pc := c.pc } : CPU).current_pc &&& 0b11) != 0) = true
    dsimp only
    rw [land_three_eq_mod]
    simpa using ha
  refine ⟨key ex eld, by rw [key ex eld, key ex2 eld2], ?_⟩
  intro c2 hc2
  rw [key ex eld] at hc2
  have hc2 := Option.some.inj hc2
  subst hc2
  refine ⟨exception_bus _ _, ?_, exception_cause_code _ _⟩
  rw [exception_pc_val]

/-- Witness for C4 at the reset CPU with `pc = 0xbfc00001`. -/
theorem step_misaligned_witness :
    (cpuMisW.dma.is_active = false) ∧ (cpuMisW.pc % 4 ≠ 0) ∧
    ((CPU.step exW eldW cpuMisW
      = some (CPU.exception { cpuMisW with current_pc := cpuMisW.pc }
          Cause.LoadAddressError)) ∧
     CPU.step exW eldW cpuMisW = CPU.step exW eldW cpuMisW ∧
     ∀ c2, CPU.step exW eldW cpuMisW = some c2 →
       c2.bus = cpuMisW.bus ∧
       c2.pc = (if cpuMisW.cop0.bev = true then 0xbfc00180 else 0x80000080) ∧
       c2.cop0.cause &&& 0x7c = Cause.LoadAddressError.toNat <<< 2) :=
  ⟨by decide, by decide,
   step_misaligned_raises_load_address_error exW exW eldW eldW cpuMisW
     (by decide) (by decide)⟩
theorem tick_gap_chopping (d : DMA) (counter : Counter) :
    (d.tick_gap counter).1.chopping_enabled = d.chopping_enabled := by
  simp only [DMA.tick_gap, DMA.chopping_enabled]
  rw [List.any_map]
  congr 1
  funext ch
  dsimp only [Function.comp]
  split <;> rfl

/-- Claim C6: when some DMA channel is active at the start of `step` and
either no channel has outstanding gap ticks or chopping is not enabled on
any active channel, the step performs no CPU instruction work: `pc`,
`next_pc`, `current_pc`, the general-purpose registers, `hi`, `low`, the
COP0 registers and the branch/delay flags are unchanged. -/
theorem step_dma_preempts (ex : Nat → CPU → CPU) (eld : CPU → CPU) (c c2 : CPU)
    (hd : c.dma.is_active = true)
    (h : c.dma.in_gap = false ∨ c.dma.chopping_enabled = false)
    (hs : CPU.step ex eld c = some c2) :
    c2.pc = c.pc ∧ c2.next_pc = c.next_pc ∧ c2.current_pc = c.current_pc ∧
    c2.r = c.r ∧ c2.hi = c.hi ∧ c2.low = c.low ∧ c2.cop0 = c.cop0 ∧
    c2.branch = c.branch ∧ c2.delay_slot = c.delay_slot := by
  unfold CPU.step at hs
  rw [if_pos hd] at hs
  cases hg : c.dma.in_gap
  · rw [hg] at hs
    rw [if_neg Bool.false_ne_true] at hs
    rcases ht : c.dma.tick c.bus with _ | ⟨dma1, bus1, count⟩ <;> rw [ht] at hs
    · exact absurd hs (by simp)
    · dsimp only at hs
      have hc2 := Option.some.inj hs
      subst hc2
      exact ⟨rfl, rfl, rfl, rfl, rfl, rfl, rfl, rfl, rfl⟩
  · rw [hg] at hs
    rw [if_pos rfl] at hs
    have hch : c.dma.chopping_enabled = false := by
      rcases h with h1 | h2
      · rw [hg] at h1
        exact absurd h1 (by simp)
      · exact h2
    have hch1 : ((c.dma.tick_gap c.bus.counter).1).chopping_enabled = false := by
      rw [tick_gap_chopping]
      exact hch
    dsimp only at hs
    rw [hch1] at hs
    rw [if_pos (by decide)] at hs
    have hc2 := Option.some.inj hs
    subst hc2
    exact ⟨rfl, rfl, rfl, rfl, rfl, rfl, rfl, rfl, rfl⟩
/-- Witness for C6: a concrete step with an active (gap-free) DMA engine. -/
theorem step_dma_preempts_witness :
    (cActW.dma.is_active = true) ∧
    (cActW.dma.in_gap = false ∨ cActW.dma.chopping_enabled = false) ∧
    (CPU.step exW eldW cActW = some cResW) ∧
    (cResW.pc = cActW.pc ∧ cResW.next_pc = cActW.next_pc ∧
     cResW.current_pc = cActW.current_pc ∧ cResW.r = cActW.r ∧
     cResW.hi = cActW.hi ∧ cResW.low = cActW.low ∧ cResW.cop0 = cActW.cop0 ∧
     cResW.branch = cActW.branch ∧ cResW.delay_slot = cActW.delay_slot) :=
  ⟨by decide, Or.inl (by decide), rfl,
   step_dma_preempts exW eldW cActW cResW (by decide) (Or.inl (by decide)) rfl⟩

theorem stream_node_words_fst (n addr : Nat) (bus : Bus) :
    (DMA.stream_node_words n addr bus).1 = 0 := by
  induction n generalizing addr bus with
  | zero => rfl
  | succ k ih =>
    rw [DMA.stream_node_words]
    exact ih _ _

theorem tick_linked_list_delta (ch : DmaChannel) (bus : Bus)
    (r : DmaChannel × Bus × Int) (h : DMA.tick_linked_list ch bus = some r) :
    r.2.2 = 0 := by
  unfold DMA.tick_linked_list at h
  split at h
  · exact absurd h (by simp)
  · split at h
    · exact absurd h (by simp)
    · split at h
      · have := Option.some.inj h
        subst this
        rfl
      · dsimp only at h
        split at h <;>
        · have := Option.some.inj h
          subst this
          show ((DMA.stream_node_words _ _ _).1 : Int) = 0
          rw [stream_node_words_fst]
          rfl

theorem tick_channel_delta_zero (control : Nat) (ch : DmaChannel) (bus : Bus)
    (hc : ¬(ch.is_active = true ∧ DMA.is_master_enabled control ch.channel_id = true) ∨
          ch.synchronization_mode = SyncMode.LinkedList)
    (r : DmaChannel × Bus × Int) (h : DMA.tick_channel control ch bus = some r) :
    r.2.2 = 0 := by
  unfold DMA.tick_channel at h
  split at h
  · next hact =>
    rcases hc with hc | hc
    · rw [Bool.and_eq_true] at hact
      exact absurd hact hc
    · rw [hc] at h
      exact tick_linked_list_delta ch bus r h
  · have := Option.some.inj h
    subst this
    rfl

theorem tick_sweep_count_zero (control : Nat) (chs : List DmaChannel) (bus : Bus)
    (hOnly : ∀ ch ∈ chs,
      ¬(ch.is_active = true ∧ DMA.is_master_enabled control ch.channel_id = true) ∨
      ch.synchronization_mode = SyncMode.LinkedList)
    (res : List DmaChannel × Int × Bus × Int)
    (h : DMA.tick_sweep control chs 0 bus = some res) :
    res.2.2.2 = 0 := by
  induction chs generalizing bus res with
  | nil =>
    have := Option.some.inj h
    subst this
    rfl
  | cons ch rest ih =>
    rw [DMA.tick_sweep] at h
    rcases ht : DMA.tick_channel control ch bus with _ | r <;> rw [ht] at h
    · exact absurd h (by simp)
    · rcases r with ⟨ch1, bus1, delta⟩
      dsimp only at h
      rcases hr : DMA.tick_sweep control rest 0 bus1 with _ | res2 <;>
        rw [hr] at h
      · exact absurd h (by simp)
      · rcases res2 with ⟨rest1, acF, busF, countRest⟩
        dsimp only at h
        have hres := Option.some.inj h
        subst hres
        have hd : delta = 0 :=
          tick_channel_delta_zero control ch bus
            (hOnly ch (List.mem_cons_self ch rest)) ⟨ch1, bus1, delta⟩ ht
        have hrest : countRest = 0 :=
          ih bus1 (fun c hc => hOnly c (List.mem_cons_of_mem ch hc))
            ⟨rest1, acF, busF, countRest⟩ hr
        simp only at hd
        show 0 + delta + countRest = 0
        rw [hd, hrest]
        rfl
/-- Claim C10: the streaming loop of a linked-list node drives the local
payload counter to 0 before it is added to `active_count`, so the cycle
cost a linked-list node contributes is always 0; consequently a tick sweep
that services only linked-list channels (every channel idle, master-disabled
or in LinkedList mode) returns 0 cycles. -/
theorem linked_list_node_cost_zero (d : DMA) (bus : Bus)
    (hac : d.active_count = 0)
    (hOnly : ∀ ch ∈ d.channels,
      ¬(ch.is_active = true ∧ DMA.is_master_enabled d.control ch.channel_id = true) ∨
      ch.synchronization_mode = SyncMode.LinkedList) :
    (∀ n addr : Nat, ∀ bus2 : Bus, (DMA.stream_node_words n addr bus2).1 = 0) ∧
    (∀ (ch : DmaChannel) (bus2 : Bus) (r : DmaChannel × Bus × Int),
      DMA.tick_linked_list ch bus2 = some r → r.2.2 = 0) ∧
    (∀ res : DMA × Bus × Int, DMA.tick d bus = some res → res.2.2 = 0) := by
  refine ⟨stream_node_words_fst, tick_linked_list_delta, ?_⟩
  intro res h
  unfold DMA.tick at h
  rw [hac] at h
  rcases hs : DMA.tick_sweep d.control d.channels 0 bus with _ | q <;> rw [hs] at h
  · exact absurd h (by simp)
  · rcases q with ⟨chs, acF, busF, count⟩
    dsimp only at h
    have hres := Option.some.inj h
    subst hres
    exact tick_sweep_count_zero d.control d.channels bus hOnly ⟨chs, acF, busF, count⟩ hs

/-- Witness for C10 on a concrete engine with an active linked-list
channel. -/
theorem linked_list_node_cost_zero_witness :
    (dmaLLW.active_count = 0) ∧
    (∀ ch ∈ dmaLLW.channels,
      ¬(ch.is_active = true ∧ DMA.is_master_enabled dmaLLW.control ch.channel_id = true) ∨
      ch.synchronization_mode = SyncMode.LinkedList) ∧
    ((∀ n addr : Nat, ∀ bus2 : Bus, (DMA.stream_node_words n addr bus2).1 = 0) ∧
     (∀ (ch : DmaChannel) (bus2 : Bus) (r : DmaChannel × Bus × Int),
       DMA.tick_linked_list ch bus2 = some r → r.2.2 = 0) ∧
     (∀ res : DMA × Bus × Int, DMA.tick dmaLLW busW = some res → res.2.2 = 0)) :=
  ⟨by decide, by decide,
   linked_list_node_cost_zero dmaLLW busW (by decide) (by decide)⟩

theorem reqCh_active (v bc ba a w r : Nat) (g : Int)
    (hv_sync : (v >>> 9) &&& 3 = 1) (hv_en : (v >>> 24) &&& 1 = 1) :
    (reqCh v bc ba a w r g).is_active = true := by
  simp [reqCh, DmaChannel.is_active, DmaChannel.enabled,
    DmaChannel.synchronization_mode, hv_sync, hv_en]

theorem reqCh_sync (v bc ba a w r : Nat) (g : Int)
    (hv_sync : (v >>> 9) &&& 3 = 1) :
    (reqCh v bc ba a w r g).synchronization_mode = SyncMode.Request := by
  simp [reqCh, DmaChannel.synchronization_mode, hv_sync]

theorem tick_request_mid (v bc ba a w r : Nat) (g : Int) (bus : Bus)
    (hv_from : v &&& 1 = 1) (hw : 2 ≤ w) :
    DMA.tick_request (reqCh v bc ba a w r g) bus
      = some (reqCh v bc ba (addrStep v a) (w - 1) r g,
              bus.gp0 (bus.mem_read_32 (a &&& 0x1ffffc)), 0) := by
  unfold DMA.tick_request
  have hfr : (reqCh v bc ba a w r g).is_from_ram = true := by
    simp [reqCh, DmaChannel.is_from_ram, hv_from]
  rw [hfr, if_pos rfl]
  split
  · dsimp only
    split
    · next hzero =>
      exfalso
      simp [reqCh] at hzero
      omega
    · rfl
  · next hch =>
    exact absurd rfl hch
theorem tick_request_block_end_continue (v bc ba a r : Nat) (g : Int) (bus : Bus)
    (hv_from : v &&& 1 = 1) (hr : 2 ≤ r) :
    DMA.tick_request (reqCh v bc ba a 1 r g) bus
      = some (reqCh v bc ba (addrStep v a) (bc &&& 0xffff) (r - 1) (g + 1),
              bus.gp0 (bus.mem_read_32 (a &&& 0x1ffffc)), ((bc &&& 0xffff : Nat) : Int)) := by
  unfold DMA.tick_request
  have hfr : (reqCh v bc ba a 1 r g).is_from_ram = true := by
    simp [reqCh, DmaChannel.is_from_ram, hv_from]
  rw [hfr, if_pos rfl]
  split
  · dsimp only
    rw [if_pos (show (((reqCh v bc ba a 1 r g).word_count - 1 == 0)) = true from rfl)]
    rw [if_pos (show (reqCh v bc ba a 1 r g).blocks_remaining - 1 > 0 from by
      show r - 1 > 0
      omega)]
    simp only [Option.some.injEq, Prod.mk.injEq]
    refine ⟨?_, rfl, ?_⟩
    · simp [reqCh, addrStep, DmaChannel.block_size, DmaChannel.is_address_increment]
    · simp [reqCh, DmaChannel.block_size]
  · next hch =>
    exact absurd rfl hch

theorem tick_request_block_end_finish (v bc ba a : Nat) (g : Int) (bus : Bus)
    (hv_from : v &&& 1 = 1) :
    DMA.tick_request (reqCh v bc ba a 1 1 g) bus
      = some ((reqCh v bc ba (addrStep v a) 0 0 g).finish,
              bus.gp0 (bus.mem_read_32 (a &&& 0x1ffffc)), ((bc &&& 0xffff : Nat) : Int)) := by
  unfold DMA.tick_request
  have hfr : (reqCh v bc ba a 1 1 g).is_from_ram = true := by
    simp [reqCh, DmaChannel.is_from_ram, hv_from]
  rw [hfr, if_pos rfl]
  split
  · dsimp only
    rw [if_pos (show (((reqCh v bc ba a 1 1 g).word_count - 1 == 0)) = true from rfl)]
    rw [if_neg (show ¬((reqCh v bc ba a 1 1 g).blocks_remaining - 1 > 0) from by
      simp [reqCh])]
    rfl
  · next hch =>
    exact absurd rfl hch
theorem tick_channel_req (ctrl v bc ba a w r : Nat) (g : Int) (bus : Bus)
    (hv_sync : (v >>> 9) &&& 3 = 1) (hv_en : (v >>> 24) &&& 1 = 1)
    (hmaster : DMA.is_master_enabled ctrl 2 = true) :
    DMA.tick_channel ctrl (reqCh v bc ba a w r g) bus
      = DMA.tick_request (reqCh v bc ba a w r g) bus := by
  unfold DMA.tick_channel
  rw [show ((reqCh v bc ba a w r g).is_active &&
        DMA.is_master_enabled ctrl (reqCh v bc ba a w r g).channel_id) = true from by
    rw [reqCh_active v bc ba a w r g hv_sync hv_en, Bool.true_and]
    exact hmaster]
  rw [if_pos rfl]
  rw [reqCh_sync v bc ba a w r g hv_sync]

theorem dma_tick_req (ctrl ir v bc ba a w r : Nat) (g : Int) (bus : Bus)
    (hv_sync : (v >>> 9) &&& 3 = 1) (hv_en : (v >>> 24) &&& 1 = 1)
    (hmaster : DMA.is_master_enabled ctrl 2 = true)
    (chR : DmaChannel) (busR : Bus) (dl : Int)
    (hreq : DMA.tick_request (reqCh v bc ba a w r g) bus = some (chR, busR, dl)) :
    DMA.tick (reqDma ctrl ir v bc ba a w r g) bus
      = some ({ control := ctrl, interrupt := ir,
                channels := [DmaChannel.new 0, DmaChannel.new 1, chR,
                             DmaChannel.new 3, DmaChannel.new 4, DmaChannel.new 5,
                             DmaChannel.new 6],
                active_count := 0 }, busR, dl) := by
  unfold DMA.tick reqDma
  dsimp only
  rw [DMA.tick_sweep]
  rw [show DMA.tick_channel ctrl (DmaChannel.new 0) bus
        = some (DmaChannel.new 0, bus, 0) from rfl]
  dsimp only
  rw [DMA.tick_sweep]
  rw [show DMA.tick_channel ctrl (DmaChannel.new 1) bus
        = some (DmaChannel.new 1, bus, 0) from rfl]
  dsimp only
  rw [DMA.tick_sweep]
  rw [tick_channel_req ctrl v bc ba a w r g bus hv_sync hv_en hmaster, hreq]
  dsimp only
  rw [DMA.tick_sweep]
  rw [show DMA.tick_channel ctrl (DmaChannel.new 3) busR
        = some (DmaChannel.new 3, busR, 0) from rfl]
  dsimp only
  rw [DMA.tick_sweep]
  rw [show DMA.tick_channel ctrl (DmaChannel.new 4) busR
        = some (DmaChannel.new 4, busR, 0) from rfl]
  dsimp only
  rw [DMA.tick_sweep]
  rw [show DMA.tick_channel ctrl (DmaChannel.new 5) busR
        = some (DmaChannel.new 5, busR, 0) from rfl]
  dsimp only
  rw [DMA.tick_sweep]
  rw [show DMA.tick_channel ctrl (DmaChannel.new 6) busR
        = some (DmaChannel.new 6, busR, 0) from rfl]
  dsimp only
  rw [DMA.tick_sweep]
  dsimp only
  simp only [Int.zero_add, Int.add_zero]
theorem ticksN_add (m n : Nat) (s : DMA × Bus) :
    ticksN (m + n) s = (ticksN m s).bind (ticksN n) := by
  induction m generalizing s with
  | zero =>
    rw [Nat.zero_add]
    rfl
  | succ k ih =>
    rw [Nat.succ_add, ticksN, ticksN]
    rcases h : tickPair s with _ | s1 <;> dsimp only
    · rfl
    · exact ih s1

theorem ticksN_within_block
    (ctrl ir v bc ba : Nat)
    (hv_from : v &&& 1 = 1) (hv_sync : (v >>> 9) &&& 3 = 1)
    (hv_en : (v >>> 24) &&& 1 = 1)
    (hmaster : DMA.is_master_enabled ctrl 2 = true) :
    ∀ t w r a : Nat, ∀ g : Int, ∀ bus : Bus, t < w →
      ∃ (a2 : Nat) (gw2 : List Nat),
        ticksN t (reqDma ctrl ir v bc ba a w r g, bus)
          = some (reqDma ctrl ir v bc ba a2 (w - t) r g, busApp bus gw2)
        ∧ gw2.length = t := by
  intro t
  induction t with
  | zero =>
    intro w r a g bus ht
    refine ⟨a, [], ?_, rfl⟩
    show some _ = _
    simp [busApp]
  | succ k ih =>
    intro w r a g bus ht
    have hmid := tick_request_mid v bc ba a w r g bus hv_from (by omega)
    have htick := dma_tick_req ctrl ir v bc ba a w r g bus hv_sync hv_en hmaster
      _ _ _ hmid
    obtain ⟨a2, gw2, hrun, hlen⟩ :=
      ih (w - 1) r (addrStep v a) g (bus.gp0 (bus.mem_read_32 (a &&& 0x1ffffc)))
        (by omega)
    refine ⟨a2, bus.mem_read_32 (a &&& 0x1ffffc) :: gw2, ?_, by simp [hlen]⟩
    rw [ticksN]
    rw [show tickPair (reqDma ctrl ir v bc ba a w r g, bus)
          = some (reqDma ctrl ir v bc ba (addrStep v a) (w - 1) r g,
              bus.gp0 (bus.mem_read_32 (a &&& 0x1ffffc))) from by
      unfold tickPair
      rw [htick]
      rfl]
    dsimp only
    rw [show w - (k + 1) = w - 1 - k from by omega]
    rw [hrun]
    simp [Bus.gp0, busApp]

theorem ticksN_block_continue
    (ctrl ir v bc ba B : Nat)
    (hv_from : v &&& 1 = 1) (hv_sync : (v >>> 9) &&& 3 = 1)
    (hv_en : (v >>> 24) &&& 1 = 1)
    (hmaster : DMA.is_master_enabled ctrl 2 = true)
    (hB : bc &&& 0xffff = B) (hB1 : 1 ≤ B) :
    ∀ r a : Nat, ∀ g : Int, ∀ bus : Bus, 2 ≤ r →
      ∃ (a2 : Nat) (gw2 : List Nat),
        ticksN B (reqDma ctrl ir v bc ba a B r g, bus)
          = some (reqDma ctrl ir v bc ba a2 B (r - 1) (g + 1), busApp bus gw2)
        ∧ gw2.length = B := by
  intro r a g bus hr
  obtain ⟨a2, gw2, hrun, hlen⟩ :=
    ticksN_within_block ctrl ir v bc ba hv_from hv_sync hv_en hmaster
      (B - 1) B r a g bus (by omega)
  have hone : B - (B - 1) = 1 := by omega
  rw [hone] at hrun
  have hend := tick_request_block_end_continue v bc ba a2 r g (busApp bus gw2)
    hv_from hr
  have htick := dma_tick_req ctrl ir v bc ba a2 1 r g (busApp bus gw2)
    hv_sync hv_en hmaster _ _ _ hend
  refine ⟨addrStep v a2,
    gw2 ++ [(busApp bus gw2).mem_read_32 (a2 &&& 0x1ffffc)], ?_, ?_⟩
  · have hsplit := ticksN_add (B - 1) 1 (reqDma ctrl ir v bc ba a B r g, bus)
    rw [show B - 1 + 1 = B from by omega] at hsplit
    rw [hsplit, hrun, Option.some_bind]
    rw [show (1 : Nat) = 0 + 1 from rfl, ticksN]
    rw [show tickPair (reqDma ctrl ir v bc ba a2 1 r g, busApp bus gw2)
        = some (reqDma ctrl ir v bc ba (addrStep v a2) (bc &&& 0xffff) (r - 1) (g + 1),
            (busApp bus gw2).gp0 ((busApp bus gw2).mem_read_32 (a2 &&& 0x1ffffc))) from by
      unfold tickPair
      rw [htick]
      rfl]
    dsimp only [ticksN]
    rw [hB]
    simp [Bus.gp0, busApp]
  · simp [hlen]
    omega
theorem ticksN_block_finish
    (ctrl ir v bc ba B : Nat)
    (hv_from : v &&& 1 = 1) (hv_sync : (v >>> 9) &&& 3 = 1)
    (hv_en : (v >>> 24) &&& 1 = 1)
    (hmaster : DMA.is_master_enabled ctrl 2 = true)
    (hB1 : 1 ≤ B) :
    ∀ a : Nat, ∀ g : Int, ∀ bus : Bus,
      ∃ (a2 : Nat) (gw2 : List Nat),
        ticksN B (reqDma ctrl ir v bc ba a B 1 g, bus)
          = some (reqDma ctrl ir (v &&& 0xeeffffff) bc ba a2 0 0 g, busApp bus gw2)
        ∧ gw2.length = B := by
  intro a g bus
  obtain ⟨a2, gw2, hrun, hlen⟩ :=
    ticksN_within_block ctrl ir v bc ba hv_from hv_sync hv_en hmaster
      (B - 1) B 1 a g bus (by omega)
  have hone : B - (B - 1) = 1 := by omega
  rw [hone] at hrun
  have hend := tick_request_block_end_finish v bc ba a2 g (busApp bus gw2) hv_from
  have htick := dma_tick_req ctrl ir v bc ba a2 1 1 g (busApp bus gw2)
    hv_sync hv_en hmaster _ _ _ hend
  refine ⟨addrStep v a2,
    gw2 ++ [(busApp bus gw2).mem_read_32 (a2 &&& 0x1ffffc)], ?_, ?_⟩
  · have hsplit := ticksN_add (B - 1) 1 (reqDma ctrl ir v bc ba a B 1 g, bus)
    rw [show B - 1 + 1 = B from by omega] at hsplit
    rw [hsplit, hrun, Option.some_bind]
    rw [show (1 : Nat) = 0 + 1 from rfl, ticksN]
    rw [show tickPair (reqDma ctrl ir v bc ba a2 1 1 g, busApp bus gw2)
        = some (reqDma ctrl ir (v &&& 0xeeffffff) bc ba (addrStep v a2) 0 0 g,
            (busApp bus gw2).gp0 ((busApp bus gw2).mem_read_32 (a2 &&& 0x1ffffc))) from by
      unfold tickPair
      rw [htick]
      rfl]
    dsimp only [ticksN]
    simp [Bus.gp0, busApp]
  · simp [hlen]
    omega
theorem reqCh_finished_not_active (v2 bc ba a w r : Nat) (g : Int) :
    (reqCh (v2 &&& 0xeeffffff) bc ba a w r g).is_active = false := by
  have h1 : (reqCh (v2 &&& 0xeeffffff) bc ba a w r g).enabled = false := by
    simp only [DmaChannel.enabled, reqCh]
    rw [land_shiftRight, land_assoc3]
    rw [show ((0xeeffffff : Nat) >>> 24) &&& 1 = 0 from by decide]
    rw [Nat.and_zero]
    decide
  simp [DmaChannel.is_active, h1]

theorem busApp_busApp (bus : Bus) (g1 g2 : List Nat) :
    busApp (busApp bus g1) g2 = busApp bus (g1 ++ g2) := by
  simp [busApp]

theorem ticksN_blocks
    (ctrl ir v bc ba B C : Nat)
    (hv_from : v &&& 1 = 1) (hv_sync : (v >>> 9) &&& 3 = 1)
    (hv_en : (v >>> 24) &&& 1 = 1)
    (hmaster : DMA.is_master_enabled ctrl 2 = true)
    (hB : bc &&& 0xffff = B) (hB1 : 1 ≤ B) :
    ∀ j a : Nat, ∀ bus : Bus, j ≤ C - 1 → 1 ≤ C →
      ∃ (a2 : Nat) (gw : List Nat),
        ticksN (j * B) (reqDma ctrl ir v bc ba a B C 0, bus)
          = some (reqDma ctrl ir v bc ba a2 B (C - j) ((j : Nat) : Int), busApp bus gw)
        ∧ gw.length = j * B := by
  intro j
  induction j with
  | zero =>
    intro a bus hj hC
    refine ⟨a, [], ?_, by simp⟩
    rw [Nat.zero_mul]
    show some _ = _
    simp [busApp]
  | succ k ih =>
    intro a bus hj hC
    obtain ⟨a2, gw, hrun, hlen⟩ := ih a bus (by omega) hC
    obtain ⟨a3, gw2, hrun2, hlen2⟩ :=
      ticksN_block_continue ctrl ir v bc ba B hv_from hv_sync hv_en hmaster hB hB1
        (C - k) a2 ((k : Nat) : Int) (busApp bus gw) (by omega)
    refine ⟨a3, gw ++ gw2, ?_, by simp [hlen, hlen2]; ring⟩
    have hsplit := ticksN_add (k * B) B (reqDma ctrl ir v bc ba a B C 0, bus)
    rw [show k * B + B = (k + 1) * B from by ring] at hsplit
    rw [hsplit, hrun, Option.some_bind, hrun2, busApp_busApp]
    rw [show C - k - 1 = C - (k + 1) from by omega]
    rw [show ((k : Nat) : Int) + 1 = (((k + 1 : Nat)) : Int) from by push_cast; ring]
/-- Claim C5: an activated, master-enabled Request-mode from-RAM channel 2
with block size `B >= 1` and block count `C >= 1` performs exactly `B*C`
word transfers over repeated `tick` calls (each tick streams one word to
the GPU): after every `n < B*C` ticks the channel is still active, exactly
`n` words have been transferred, and `gap_ticks` equals
`min (n / B) (C - 1)` — one gap tick inserted at each of the `C - 1`
block boundaries — while after `B*C` ticks the channel is finished
(inactive) with `gap_ticks = C - 1`. -/
theorem request_mode_block_transfer_schedule
    (ctrl ir v bc ba a B C : Nat) (bus : Bus)
    (hB : bc &&& 0xffff = B) (hB1 : 1 ≤ B) (hC1 : 1 ≤ C)
    (hv_from : v &&& 1 = 1) (hv_sync : (v >>> 9) &&& 3 = 1)
    (hv_en : (v >>> 24) &&& 1 = 1)
    (hmaster : DMA.is_master_enabled ctrl 2 = true) :
    (∃ (dF : DMA) (busF : Bus),
       ticksN (B * C) (reqDma ctrl ir v bc ba a B C 0, bus) = some (dF, busF) ∧
       (∃ chF, dF.channels[2]? = some chF ∧ chF.is_active = false ∧
          chF.gap_ticks = ((C - 1 : Nat) : Int)) ∧
       busF.gp0_words.length = bus.gp0_words.length + B * C) ∧
    (∀ n, n < B * C →
       ∃ (dn : DMA) (busn : Bus),
         ticksN n (reqDma ctrl ir v bc ba a B C 0, bus) = some (dn, busn) ∧
         (∃ chn, dn.channels[2]? = some chn ∧ chn.is_active = true ∧
            chn.gap_ticks = ((min (n / B) (C - 1) : Nat) : Int)) ∧
         busn.gp0_words.length = bus.gp0_words.length + n) := by
  constructor
  · obtain ⟨a2, gw, hrun, hlen⟩ :=
      ticksN_blocks ctrl ir v bc ba B C hv_from hv_sync hv_en hmaster hB hB1
        (C - 1) a bus (by omega) hC1
    rw [show C - (C - 1) = 1 from by omega] at hrun
    obtain ⟨a3, gw2, hrun2, hlen2⟩ :=
      ticksN_block_finish ctrl ir v bc ba B hv_from hv_sync hv_en hmaster hB1
        a2 ((C - 1 : Nat) : Int) (busApp bus gw)
    have hsplit := ticksN_add ((C - 1) * B) B (reqDma ctrl ir v bc ba a B C 0, bus)
    rw [show (C - 1) * B + B = B * C from by
      rcases C with _ | c
      · omega
      · simp [Nat.succ_sub_one]
        ring] at hsplit
    refine ⟨reqDma ctrl ir (v &&& 0xeeffffff) bc ba a3 0 0 ((C - 1 : Nat) : Int),
      busApp bus (gw ++ gw2), ?_,
      ⟨reqCh (v &&& 0xeeffffff) bc ba a3 0 0 ((C - 1 : Nat) : Int),
        rfl, reqCh_finished_not_active _ _ _ _ _ _ _, rfl⟩, ?_⟩
    · rw [hsplit, hrun, Option.some_bind, hrun2, busApp_busApp]
    · show (bus.gp0_words ++ (gw ++ gw2)).length = _
      simp [hlen, hlen2]
      rcases C with _ | c
      · omega
      · simp [Nat.succ_sub_one]
        ring
  · intro n hn
    have hq : n / B ≤ C - 1 := by
      have hlt : n / B < C := (Nat.div_lt_iff_lt_mul (show 0 < B from hB1)).mpr
        (by rw [Nat.mul_comm] at hn; exact hn)
      omega
    obtain ⟨a2, gw, hrun, hlen⟩ :=
      ticksN_blocks ctrl ir v bc ba B C hv_from hv_sync hv_en hmaster hB hB1
        (n / B) a bus hq hC1
    obtain ⟨a3, gw2, hrun2, hlen2⟩ :=
      ticksN_within_block ctrl ir v bc ba hv_from hv_sync hv_en hmaster
        (n % B) B (C - n / B) a2 ((n / B : Nat) : Int) (busApp bus gw)
        (Nat.mod_lt n hB1)
    have hsplit := ticksN_add (n / B * B) (n % B)
      (reqDma ctrl ir v bc ba a B C 0, bus)
    rw [show n / B * B + n % B = n from by
      rw [Nat.mul_comm]
      exact Nat.div_add_mod n B] at hsplit
    refine ⟨reqDma ctrl ir v bc ba a3 (B - n % B) (C - n / B) ((n / B : Nat) : Int),
      busApp bus (gw ++ gw2), ?_,
      ⟨reqCh v bc ba a3 (B - n % B) (C - n / B) ((n / B : Nat) : Int),
        rfl, reqCh_active v bc ba a3 _ _ _ hv_sync hv_en, ?_⟩, ?_⟩
    · rw [hsplit, hrun, Option.some_bind, hrun2, busApp_busApp]
    · rw [Nat.min_eq_left hq]
      rfl
    · show (bus.gp0_words ++ (gw ++ gw2)).length = _
      simp [hlen, hlen2]
      rw [Nat.mul_comm]
      exact Nat.div_add_mod n B
/-- Witness for C5 with `B = 2`, `C = 2` on a concrete engine. -/
theorem request_mode_block_transfer_schedule_witness :
    ((0x00020002 : Nat) &&& 0xffff = 2) ∧ ((1 : Nat) ≤ 2) ∧
    ((0x01000201 : Nat) &&& 1 = 1) ∧ (((0x01000201 : Nat) >>> 9) &&& 3 = 1) ∧
    (((0x01000201 : Nat) >>> 24) &&& 1 = 1) ∧
    (DMA.is_master_enabled 0x800 2 = true) ∧
    ((∃ (dF : DMA) (busF : Bus),
        ticksN (2 * 2) (reqDma 0x800 0 0x01000201 0x00020002 0 0 2 2 0, busW)
          = some (dF, busF) ∧
        (∃ chF, dF.channels[2]? = some chF ∧ chF.is_active = false ∧
           chF.gap_ticks = ((2 - 1 : Nat) : Int)) ∧
        busF.gp0_words.length = busW.gp0_words.length + 2 * 2) ∧
     (∀ n, n < 2 * 2 →
        ∃ (dn : DMA) (busn : Bus),
          ticksN n (reqDma 0x800 0 0x01000201 0x00020002 0 0 2 2 0, busW)
            = some (dn, busn) ∧
          (∃ chn, dn.channels[2]? = some chn ∧ chn.is_active = true ∧
             chn.gap_ticks = ((min (n / 2) (2 - 1) : Nat) : Int)) ∧
          busn.gp0_words.length = busW.gp0_words.length + n)) :=
  ⟨by decide, by decide, by decide, by decide, by decide, by decide,
   request_mode_block_transfer_schedule 0x800 0 0x01000201 0x00020002 0 0 2 2 busW
     (by decide) (by decide) (by decide) (by decide) (by decide) (by decide)
     (by decide)⟩

end PSX
